import Mathlib

/-!
# A shallow embedding of `SQL.cpp` (n1ddeh/database)

The command-line SQL front end of the repository is embedded function by function.

Modelling conventions.
* A `std::string` is a list of characters (`Str`); a `std::vector<T>` is a `List T`.
  String literals are written `"...".toList`.
* Sizes (`unsigned int argn`, `num_columns`, ...) are natural numbers: a token vector is
  taken to hold fewer than `2 ^ 32` entries.  The one place where unsigned wrap-around is
  reachable on short inputs (`tempTypeSize - 2` in `parseTableColumns`) is modelled
  explicitly as an out-of-range read.
* Operations that bring the program down or corrupt its memory (`back()` on an empty vector,
  `pop_back()` on an empty string, `operator[]` of a vector past the end, dereferencing a
  null `shared_ptr`) make the embedded function return `Except.error` with the kind of
  fault.
* Two reads outside the contents of a `std::string` stay inside the string object and let the
  program go on; they are modelled by what is read: `back()` on an empty string gives the
  NUL character, and a slice that runs past the end of a string stops at its end.
-/

namespace SQL

/-- A `std::string`, as its sequence of characters. -/
abbrev Str := List Char

/-! ## `SQL::parenthesisBalance` (SQL.cpp 508-523) -/

/-- The `for` loop of `parenthesisBalance`; the first argument is the stack `p`
(top of the stack first), the second the characters still to be scanned. -/
def parenthesisBalanceLoop : List Char → Str → Bool
  | p, [] => p.isEmpty
  | p, c :: s =>
    if c = '(' ∨ c = '{' ∨ c = '[' then parenthesisBalanceLoop (c :: p) s
    else if c = ')' then
      match p with
      | [] => false
      | top :: rest => if top ≠ '(' then false else parenthesisBalanceLoop rest s
    else if c = '}' then
      match p with
      | [] => false
      | top :: rest => if top ≠ '{' then false else parenthesisBalanceLoop rest s
    else if c = ']' then
      match p with
      | [] => false
      | top :: rest => if top ≠ '[' then false else parenthesisBalanceLoop rest s
    else parenthesisBalanceLoop p s

/-- `bool SQL::parenthesisBalance(std::string s)`. -/
def parenthesisBalance (s : Str) : Bool :=
  parenthesisBalanceLoop [] s

/-! ## Faults and element access -/

/-- The kinds of undefined behaviour the embedded code can run into. -/
inductive Fault
  /-- Calling `back()` on an empty vector or `pop_back()` on an empty string. -/
  | emptyBack
  /-- Reading `v[i]` with `i` past the end, or forming an iterator past the end. -/
  | outOfRange
  /-- Dereferencing a null `shared_ptr`. -/
  | nullDeref
  deriving DecidableEq, Repr

/-- Reading `args[i]` of a `std::vector<std::string>`: out of range is undefined behaviour. -/
def elemAt (v : List Str) (i : Nat) : Except Fault Str :=
  match v[i]? with
  | some x => .ok x
  | none => .error Fault.outOfRange

/-- Reading `s.back()` of a `std::string`. On the empty string the program reads the byte
in front of the character buffer, a NUL, and goes on. -/
def back (s : Str) : Char :=
  s.getLastD (Char.ofNat 0)

/-- Reading `s[0]` of a `std::string`: on the empty string this is the terminating
null character. -/
def front (s : Str) : Char :=
  s.headD (Char.ofNat 0)

/-- The C function `isdigit` on the characters `0` to `9`. -/
def isdigit (c : Char) : Bool :=
  decide ('0' ≤ c ∧ c ≤ '9')

/-- Modelled from the spec: the helper `_toUpper` is declared outside SQL.cpp; the spec says
keywords and type tokens are upper-cased before comparison. ASCII letters `a`-`z` are mapped
to `A`-`Z`, every other character is kept. -/
def _toUpper (s : Str) : Str :=
  s.map Char.toUpper

/-- Modelled from the spec: the helper `_subVector(v, first, last)` is declared outside
SQL.cpp; `insertInto` uses it with `first = v.begin() + 3` and `last = v.end()` to take
"a sub vector of just the parameters". -/
def _subVector (v : List Str) (first : Nat) : List Str :=
  v.drop first

/-- Modelled from the spec: the helper `_join(v, sep)` is declared outside SQL.cpp;
`insertInto` uses it to "join the parameters as a string with space as delimeter", then
looks for `VALUES(` from the second character of the joined string and takes the payload
from the ninth: the joined string carries the separator in front of every element. -/
def _join (v : List Str) (sep : Str) : Str :=
  (v.map (fun x => sep ++ x)).flatten

/-! ## Catalogs (`initializeCommands`, `initializeTypes`) -/

/-- The `commands` map built by `initializeCommands` (SQL.cpp 21-42). -/
def commands : List (Str × Nat) :=
  [("CREATE".toList, 0), ("DROP".toList, 1), ("USE".toList, 2),
   ("ALTER".toList, 3), ("SELECT".toList, 4), ("INSERT".toList, 5)]

/-- The `types` map built by `initializeTypes` (SQL.cpp 608-624). -/
def types : List (Str × Nat) :=
  [("INT".toList, 0), ("FLOAT".toList, 1), ("CHAR".toList, 2), ("VARCHAR".toList, 3)]

/-- `bool SQL::cmdExists(const std::string& cmd)`. -/
def cmdExists (cmd : Str) : Bool :=
  commands.any (fun e => e.1 = cmd)

/-- `unsigned int SQL::cmdId(const std::string& cmd)`; only called after `cmdExists`. -/
def cmdId (cmd : Str) : Nat :=
  match commands.find? (fun e => e.1 = cmd) with
  | some e => e.2
  | none => 0

/-! ## `SQL::split` (SQL.cpp 389-399) -/

/-- The `while (std::getline(tokenStream, token, delimiter))` loop: the first argument is
the unread part of the stream (non-empty when a read starts), the second the token being
read. A read ends at the delimiter, which is consumed, or at the end of the stream; a read
that starts at the end of the stream fails and ends the loop. -/
def splitLoop (delimiter : Char) : Str → Str → List Str
  | [], token => [token]
  | c :: s, token =>
    if c = delimiter then
      match s with
      | [] => [token]
      | _ :: _ => token :: splitLoop delimiter s []
    else splitLoop delimiter s (token ++ [c])

/-- `std::vector<std::string> SQL::split(const std::string& s, char delimiter)`. -/
def split (s : Str) (delimiter : Char) : List Str :=
  match s with
  | [] => []
  | _ :: _ => splitLoop delimiter s []

/-! ## `SQL::errorUnknownArguments` (SQL.cpp 401-411) -/

/-- The tokens printed between the braces of the "Unknown Argument(s)" message, in the
order printed; `none` when the function returns without printing. -/
def errorUnknownArguments (args : List Str) (index : Nat) : Option (List Str) :=
  if index > args.length then none else some (args.drop index)

/-! ## `SQL::parseTableColumns` (SQL.cpp 423-506) -/

/-- A list of `(name, type)` pairs, `std::vector<std::pair<std::string, std::string>>`. -/
abbrev Columns := List (Str × Str)

/-- The diagnostics `parseTableColumns` prints before returning an empty list. -/
inductive ParseDiag
  /-- "column arguments for CREATE TABLE do not exist". -/
  | noColumnArguments
  /-- "Number of column arguments for CREATE TABLE are not even". -/
  | oddColumnArguments
  /-- "Column arguments for CREATE TABLE are not wrapped with ()". -/
  | notWrapped
  /-- "CREATE table error: Missing ',' after datatype ...". -/
  | missingComma (tempType : Str)
  deriving DecidableEq, Repr

/-- What a call of `parseTableColumns` produces: the diagnostic printed, if any, and the
returned vector. -/
structure Parsed where
  diag : Option ParseDiag
  columns : Columns
  deriving DecidableEq, Repr

/-- The top of the loop body and the code after the loop:
`if (tempName.size() && tempType.size()) { res.emplace_back(...); clear both }`. -/
def flushPair (tempName tempType : Str) (res : Columns) : Str × Str × Columns :=
  if tempName.length ≠ 0 ∧ tempType.length ≠ 0 then ([], [], res ++ [(tempName, tempType)])
  else (tempName, tempType, res)

/-- The `for (index = 0; index < num_columns; ++index)` loop of `parseTableColumns`
(SQL.cpp 475-503). `num_columns` is the number of tokens, `last` is `columns.back()` (after
the closing parenthesis was removed), the list argument holds `columns[index], ...`. -/
def parseLoop (num_columns : Nat) (last : Str) :
    Nat → List Str → Str → Str → Columns → Except Fault Parsed
  | _, [], tempName, tempType, res =>
    .ok ⟨none, (flushPair tempName tempType res).2.2⟩
  | index, tok :: rest, tempName, tempType, res =>
    match flushPair tempName tempType res with
    | (tempName, tempType, res) =>
      if index % 2 ≠ 0 then
        -- tempType = columns[index]
        if index < num_columns - 1 ∧ back tok ≠ ',' then
          .ok ⟨some (ParseDiag.missingComma tok), []⟩
        else if last ≠ tok then
          -- tempType.pop_back()
          match tok with
          | [] => .error Fault.emptyBack
          | _ :: _ => parseLoop num_columns last (index + 1) rest tempName tok.dropLast res
        else parseLoop num_columns last (index + 1) rest tempName tok res
      else
        -- tempName = columns[index]
        parseLoop num_columns last (index + 1) rest tok tempType res

/-- The two-token branch of `parseTableColumns` (SQL.cpp 436-452). The leading `(` is erased
from `columns[0]`, not from the copy `tempName` that is returned. `tempType[tempTypeSize - 2]`
is read only when `tempType.back() == ')'`; for a one-character `tempType` the unsigned index
wraps around and the read is out of range. -/
def parseTwo (tempName tempType : Str) : Except Fault Parsed :=
  if back tempType = ')' then
    if tempType.length < 2 then .error Fault.outOfRange
    else
      let c := tempType.getD (tempType.length - 2) (Char.ofNat 0)
      if c = ')' ∧ ¬ isdigit c then .ok ⟨none, [(tempName, tempType.dropLast)]⟩
      else .ok ⟨none, [(tempName, tempType)]⟩
  else .ok ⟨none, [(tempName, tempType)]⟩

/-- `SQL::parseTableColumns(std::vector<std::string> columns)`. -/
def parseTableColumns (columns : List Str) : Except Fault Parsed :=
  let num_columns := columns.length
  if num_columns = 0 then .ok ⟨some ParseDiag.noColumnArguments, []⟩
  else
    match columns with
    | [tempName, tempType] => parseTwo tempName tempType
    | _ =>
      if num_columns % 2 ≠ 0 then .ok ⟨some ParseDiag.oddColumnArguments, []⟩
      else
        let first := columns.headD []
        let lastTok := columns.getLastD []
        if ¬ (front first = '(') ∨ ¬ (back lastTok = ')') then
          .ok ⟨some ParseDiag.notWrapped, []⟩
        else
          -- columns[num_columns-1].pop_back(); columns[0].erase(columns[0].begin());
          let columns1 := columns.dropLast ++ [lastTok.dropLast]
          let columns2 := (columns1.headD []).tail :: columns1.tail
          parseLoop num_columns (columns2.getLastD []) 0 columns2 [] [] []

/-! ## `SQL::checkTypes` (SQL.cpp 630-683) -/

/-- The messages one type token adds to `errors` in the loop body of `checkTypes`. -/
def typeErrors (type : Str) : List Str :=
  let upperType := _toUpper type
  if ¬ types.any (fun e => e.1 = upperType) then
    if upperType.take 8 = "VARCHAR(".toList ∧ upperType.getLast? = some ')' then
      let num := (upperType.drop 8).take (upperType.length - 9)
      (if front num = '-' then
          ["-- TYPE ERORR: VARCHAR size (".toList ++ num ++ ") cannot be negative.\n".toList]
        else [])
      ++ (num.filter (fun c => ¬ isdigit c)).map (fun _ =>
          "-- TYPE ERROR: VARCHAR size (".toList ++ num ++
            ") contains non digit characters.\n".toList)
    else ["-- TYPE ERORR: Unknown type: ".toList ++ type ++ "\n".toList]
  else []

/-- The vector `errors` at the end of the `for (auto type: types)` loop of `checkTypes`. -/
def checkTypesErrors (tokens : List Str) : List Str :=
  (tokens.map typeErrors).flatten

/-- `bool SQL::checkTypes(std::vector<std::string> types)`. -/
def checkTypes (tokens : List Str) : Bool :=
  if (checkTypesErrors tokens).length ≠ 0 then false else true

/-! ## `SQL::isolateParams` (SQL.cpp 747-788) -/

/-- The local variables of `isolateParams`: `container`, `index` and the stack `quotes`
(top first). -/
structure IsolateState where
  container : List Str
  index : Nat
  quotes : List Char
  deriving DecidableEq, Repr

/-- The statement `container[index] += c`. -/
def IsolateState.append (st : IsolateState) (c : Char) : IsolateState :=
  { st with container := st.container.set st.index (st.container.getD st.index [] ++ [c]) }

/-- The three-way choice made for a quote character `q` (34 or 39). -/
def IsolateState.quote (st : IsolateState) (q : Char) : IsolateState :=
  if ¬ st.quotes.isEmpty ∧ st.quotes.head? = some q then { st with quotes := st.quotes.tail }
  else if st.quotes.isEmpty ∧ (st.container.getD st.index []).isEmpty then
    { st with quotes := q :: st.quotes }
  else st.append q

/-- One iteration of the `for (auto& c : params)` loop of `isolateParams`. -/
def isolateStep (delim : Char) (st : IsolateState) (c : Char) : IsolateState :=
  if c = delim ∧ st.quotes.isEmpty then
    { st with index := st.index + 1, container := st.container ++ [[]] }
  else if c = Char.ofNat 34 then st.quote (Char.ofNat 34)
  else if c = Char.ofNat 39 then st.quote (Char.ofNat 39)
  else st.append c

/-- `std::vector<std::string> SQL::isolateParams(std::string params, char delim)`. -/
def isolateParams (params : Str) (delim : Char) : List Str :=
  (params.foldl (isolateStep delim) ⟨[[]], 0, []⟩).container

/-! ## The storage collaborator -/

/-- Modelled from the spec: the `Table` class is declared outside SQL.cpp. A table holds the
column definitions it was created with or extended by, and the rows inserted. -/
structure Table where
  columns : Columns
  rows : List (List Str)
  deriving DecidableEq, Repr

/-- Modelled from the spec: the `Database` class is declared outside SQL.cpp. A database has
a name and a collection of tables addressed by name. -/
structure Database where
  name : Str
  tables : List (Str × Table)
  deriving DecidableEq, Repr

/-- Modelled from the spec: `tableExists(name) -> bool` on a database handle. -/
def Database.tableExists (db : Database) (table_name : Str) : Bool :=
  db.tables.any (fun t => t.1 = table_name)

/-- Modelled from the spec: `createTable(name, columns) -> void` on a database handle. -/
def Database.createTable (db : Database) (table_name : Str) (columns : Columns) : Database :=
  { db with tables := db.tables ++ [(table_name, ⟨columns, []⟩)] }

/-- Modelled from the spec: `dropTable(name) -> void` on a database handle. -/
def Database.dropTable (db : Database) (table_name : Str) : Database :=
  { db with tables := db.tables.filter (fun t => t.1 ≠ table_name) }

/-- Modelled from the spec: `addColumns(name, columns) -> void` on a database handle
(`addColumnsToTable` in the code). -/
def Database.addColumnsToTable (db : Database) (table_name : Str) (columns : Columns) :
    Database :=
  { db with tables := db.tables.map (fun t =>
      if t.1 = table_name then (t.1, { t.2 with columns := t.2.columns ++ columns }) else t) }

/-- Modelled from the spec: `getTable(name) -> TableHandle?` on a database handle; `none` is
the null handle. -/
def Database.getTable (db : Database) (table_name : Str) : Option Table :=
  (db.tables.find? (fun t => t.1 = table_name)).map (fun t => t.2)

/-- Modelled from the spec: the table-handle operations `insertRow(values) -> bool` and
`printAll() -> bool` are declared outside SQL.cpp and the spec does not say when they
succeed, so they are parameters of the embedding. `insertRow` returns its result and the
table after the call. -/
structure TableOps where
  insertRow : Table → List Str → Bool × Table
  printAll : Table → Bool

/-! ## The state of an `SQL` object -/

/-- The data members of `SQL`. `Database` objects are shared through `shared_ptr`, so they
live in `heap` and are referred to by their position in it: `databases` is the
`unordered_map` from names to pointers, `database` the selected database (`none` is
`nullptr`). -/
structure State where
  heap : List Database
  databases : List (Str × Nat)
  database : Option Nat
  database_count : Nat
  deriving DecidableEq, Repr

/-- The state after the constructor's initialisation: no database, none selected. -/
def State.init : State :=
  ⟨[], [], none, 0⟩

/-- Dereferencing `this->database`: undefined when it is null. -/
def State.selected (s : State) : Except Fault (Nat × Database) :=
  match s.database with
  | none => .error Fault.nullDeref
  | some h =>
    match s.heap[h]? with
    | some db => .ok (h, db)
    | none => .error Fault.nullDeref

/-- Writing through a pointer: the object at position `h` becomes `db`. -/
def State.store (s : State) (h : Nat) (db : Database) : State :=
  { s with heap := s.heap.set h db }

/-- `bool SQL::dbSelected()` (SQL.cpp 73-80). -/
def dbSelected (s : State) : Bool :=
  if s.database ≠ none then true else false

/-- `bool SQL::dbExists(const std::string& database_name)` (SQL.cpp 374-377). -/
def dbExists (s : State) (database_name : Str) : Bool :=
  s.databases.any (fun e => e.1 = database_name)

/-- `SQL::getDatabase(const std::string& database_name)` (SQL.cpp 413-421). -/
def getDatabase (s : State) (database_name : Str) : Option Nat :=
  if ¬ dbExists s database_name then none
  else (s.databases.find? (fun e => e.1 = database_name)).map (fun e => e.2)

/-! ## The command handlers

Every handler returns the `bool` the C++ function returns together with the state after the
call, or the fault it runs into. Console output is not part of the result. -/

/-- `bool SQL::createDatabase(const std::vector<std::string>& args)` (SQL.cpp 82-126). The new
`Database` object is allocated at the end of the heap; `incrementDatabaseCount`, declared
outside SQL.cpp, adds one to `database_count`. -/
def createDatabase (s : State) (args : List Str) : Except Fault (Bool × State) :=
  if args.length < 3 then .ok (false, s)
  else do
    let command_name := _toUpper (← elemAt args 0)
    let database := _toUpper (← elemAt args 1)
    let database_name ← elemAt args 2
    if command_name ≠ "CREATE".toList ∨ database ≠ "DATABASE".toList then pure (false, s)
    -- errorUnknownArguments(args, command_name, max_argn)
    else if args.length > 3 then pure (false, s)
    else if dbExists s database_name then pure (false, s)
    else pure (true,
      { s with
        heap := s.heap ++ [⟨database_name, []⟩]
        databases := s.databases ++ [(database_name, s.heap.length)]
        database_count := s.database_count + 1 })

/-- `bool SQL::dropDatabase(const std::vector<std::string>& args)` (SQL.cpp 128-167). Only
the map entry is erased; `decrementDatabaseCount`, declared outside SQL.cpp, subtracts one
from `database_count`. The member `database` is not touched. -/
def dropDatabase (s : State) (args : List Str) : Except Fault (Bool × State) :=
  if args.length < 3 then .ok (false, s)
  else do
    let command_name := _toUpper (← elemAt args 0)
    let database := _toUpper (← elemAt args 1)
    let database_name ← elemAt args 2
    if command_name ≠ "DROP".toList ∨ database ≠ "DATABASE".toList then pure (false, s)
    -- errorUnknownArguments(args, command_name, max_argn)
    else if args.length > 3 then pure (false, s)
    else if ¬ dbExists s database_name then pure (false, s)
    else pure (true,
      { s with
        databases := s.databases.filter (fun e => e.1 ≠ database_name)
        database_count := s.database_count - 1 })

/-- `bool SQL::createTable(const std::vector<std::string>& args)` (SQL.cpp 169-220). -/
def createTable (s : State) (args : List Str) : Except Fault (Bool × State) := do
  let command := _toUpper (← elemAt args 0)
  let table := _toUpper (← elemAt args 1)
  let table_name ← elemAt args 2
  if command ≠ "CREATE".toList ∨ table ≠ "TABLE".toList then pure (false, s)
  else if ¬ dbSelected s then pure (false, s)
  else do
    let (h, db) ← s.selected
    if db.tableExists table_name then pure (false, s)
    else if args.length > 3 then do
      let parsed ← parseTableColumns (args.drop 3)
      let columns := parsed.columns
      if columns.length ≠ 0 ∧ ¬ checkTypes (columns.map (fun col => col.2)) then
        pure (false, s)
      else pure (true, s.store h (db.createTable table_name columns))
    else pure (true, s.store h (db.createTable table_name []))

/-- `bool SQL::dropTable(const std::vector<std::string>& args)` (SQL.cpp 222-253). The local
`argn` is computed and never used. -/
def dropTable (s : State) (args : List Str) : Except Fault (Bool × State) := do
  let command := _toUpper (← elemAt args 0)
  let table := _toUpper (← elemAt args 1)
  let table_name ← elemAt args 2
  if command ≠ "DROP".toList ∨ table ≠ "TABLE".toList then pure (false, s)
  else if ¬ dbSelected s then pure (false, s)
  else do
    let (h, db) ← s.selected
    if ¬ db.tableExists table_name then pure (false, s)
    else pure (true, s.store h (db.dropTable table_name))

/-- `bool SQL::useDatabase(std::shared_ptr<Database> db)` (SQL.cpp 255-264). -/
def useDatabasePtr (s : State) (db : Option Nat) : Bool × State :=
  match db with
  | none => (false, s)
  | some h => (true, { s with database := some h })

/-- `bool SQL::useDatabase(const std::vector<std::string>& args)` (SQL.cpp 266-303).
`args[0]` is compared with `"USE"` as typed. -/
def useDatabase (s : State) (args : List Str) : Except Fault (Bool × State) :=
  -- errorUnknownArguments(args, "USE", 2)
  if args.length > 2 then .ok (false, s)
  else do
    let a0 ← elemAt args 0
    if a0 ≠ "USE".toList then pure (false, s)
    else do
      let database_name ← elemAt args 1
      if database_name.length = 0 then pure (false, s)
      else if ¬ dbExists s database_name then pure (false, s)
      else
        match getDatabase s database_name with
        | none => pure (false, s)
        | some h => pure (useDatabasePtr s (some h))

/-- `bool SQL::alterTable(const std::vector<std::string>& args)` (SQL.cpp 579-606). The
column tail starts at `args.begin() + 4`; `args[0]` and `args[1]` are compared as typed;
`database` is dereferenced without a `dbSelected()` test. -/
def alterTable (s : State) (args : List Str) : Except Fault (Bool × State) := do
  let command ← elemAt args 0
  let table ← elemAt args 1
  let table_name ← elemAt args 2
  let _alter_type ← elemAt args 3
  let parsed ← parseTableColumns (args.drop 4)
  let columns := parsed.columns
  if command ≠ "ALTER".toList ∨ table ≠ "TABLE".toList then pure (false, s)
  else do
    let (h, db) ← s.selected
    if ¬ db.tableExists table_name then pure (false, s)
    else pure (true, s.store h (db.addColumnsToTable table_name columns))

/-- `bool SQL::selectTable(const std::vector<std::string>& args)` (SQL.cpp 525-571). The
tests `from != "FROM"`, `!dbSelected()` and `!tableExists(table_name)` only print a message
and fall through, so `this->database` and the table handle are dereferenced in any case. -/
def selectTable (K : TableOps) (s : State) (args : List Str) : Except Fault (Bool × State) := do
  let command := _toUpper (← elemAt args 0)
  let select_type := _toUpper (← elemAt args 1)
  let _from := _toUpper (← elemAt args 2)
  let table_name ← elemAt args 3
  if command ≠ "SELECT".toList then pure (false, s)
  -- errorUnknownArguments(args, command, 4)
  else if args.length > 4 then pure (false, s)
  else do
    -- this->database->tableExists(table_name)
    let (_, db) ← s.selected
    if select_type = "*".toList then
      match db.getTable table_name with
      | none => .error Fault.nullDeref
      | some table => pure (K.printAll table, s)
    else pure (false, s)

/-- Writing through a table handle: the table registered under `table_name` becomes `t`. -/
def Database.setTable (db : Database) (table_name : Str) (t : Table) : Database :=
  { db with tables := db.tables.map (fun e => if e.1 = table_name then (e.1, t) else e) }

/-- `bool SQL::insertInto(const std::vector<std::string>& args)` (SQL.cpp 685-745).
`isolateParams` is called with its default delimiter, the comma. On a joined string shorter
than eight characters the slice compared with `VALUES(` stops at the end of the string, so
the comparison fails. -/
def insertInto (K : TableOps) (s : State) (args : List Str) : Except Fault (Bool × State) := do
  let command := _toUpper (← elemAt args 0)
  let command_type := _toUpper (← elemAt args 1)
  if command ≠ "INSERT".toList ∧ command_type ≠ "INTO".toList then pure (false, s)
  else if ¬ dbSelected s then pure (false, s)
  else do
    let table_name ← elemAt args 2
    let (h, db) ← s.selected
    if ¬ db.tableExists table_name then pure (false, s)
    else
      let paramsVec := _subVector args 3
      let paramsString := _join paramsVec " ".toList
      -- std::string(paramsString.begin() + 1, paramsString.begin() + 8)
      let values := _toUpper ((paramsString.drop 1).take 7)
      if values ≠ "VALUES(".toList ∨ paramsString.getLast? ≠ some ')' then pure (false, s)
      else if paramsString.length < 9 then .error Fault.outOfRange
      else
        let paramsParsed := (paramsString.drop 8).dropLast
        let isolatedParams := isolateParams paramsParsed ','
        match db.getTable table_name with
        | none => .error Fault.nullDeref
        | some table =>
          let r := K.insertRow table isolatedParams
          pure (r.1, s.store h (db.setTable table_name r.2))

/-- The first statement of `HANDLE_CMD` (SQL.cpp 309):
`if (args.back().back() == ';') { (args.back()).pop_back(); }`. -/
def stripTerminator (args : List Str) : Except Fault (List Str) :=
  match args.getLast? with
  | none => .error Fault.emptyBack
  | some lastTok =>
    if back lastTok = ';' then .ok (args.dropLast ++ [lastTok.dropLast]) else .ok args

/-- `bool SQL::HANDLE_CMD(std::vector<std::string> args)` (SQL.cpp 305-372). -/
def HANDLE_CMD (K : TableOps) (s : State) (args0 : List Str) : Except Fault (Bool × State) := do
  let args ← stripTerminator args0
  let command := _toUpper (← elemAt args 0)
  if ¬ cmdExists command then pure (false, s)
  else
    let command_id := cmdId command
    if command_id = 0 then do
      let create_type := _toUpper (← elemAt args 1)
      if create_type = "DATABASE".toList then createDatabase s args
      else if create_type = "TABLE".toList then createTable s args
      else pure (false, s)
    else if command_id = 1 then do
      let drop_type := _toUpper (← elemAt args 1)
      if drop_type = "DATABASE".toList then dropDatabase s args
      else if drop_type = "TABLE".toList then dropTable s args
      else pure (false, s)
    else if command_id = 2 then useDatabase s args
    else if command_id = 3 then alterTable s args
    else if command_id = 4 then selectTable K s args
    else if command_id = 5 then do
      let insert_type := _toUpper (← elemAt args 1)
      if insert_type = "INTO".toList then insertInto K s args
      else pure (false, s)
    else pure (true, s)

/-! ## `SQL::SQL_CLI` (SQL.cpp 44-71) -/

/-- One round of `SQL_CLI` on the line `input`: `none` when the loop exits, otherwise the
state with which `SQL_CLI` calls itself again. The result of `HANDLE_CMD` is discarded. -/
def SQL_CLI_step (K : TableOps) (s : State) (input : Str) : Except Fault (Option State) :=
  if ¬ parenthesisBalance input then .ok (some s)
  else if input = ".EXIT".toList ∨ input = "EXIT".toList then .ok none
  else
    match HANDLE_CMD K s (split input ' ') with
    | .error f => .error f
    | .ok r => .ok (some r.2)

/-- `void SQL::SQL_CLI()` run on the lines of standard input. When the input is exhausted
`std::getline` leaves `input` empty and the round runs on the empty line. -/
def SQL_CLI (K : TableOps) : State → List Str → Except Fault State
  | s, [] =>
    match SQL_CLI_step K s [] with
    | .error f => .error f
    | .ok _ => .ok s
  | s, input :: rest =>
    match SQL_CLI_step K s input with
    | .error f => .error f
    | .ok none => .ok s
    | .ok (some s1) => SQL_CLI K s1 rest

/-! ## Well-nested bracket words -/

/-- The six bracket characters. -/
def isBracket (c : Char) : Bool :=
  c = '(' ∨ c = ')' ∨ c = '{' ∨ c = '}' ∨ c = '[' ∨ c = ']'

/-- An opener together with the closer of the same kind. -/
def Matching (o c : Char) : Prop :=
  (o = '(' ∧ c = ')') ∨ (o = '{' ∧ c = '}') ∨ (o = '[' ∧ c = ']')

/-- Well-nested bracket words: the empty word, a concatenation of well-nested words, or
an opener, a well-nested word and the closer of the same kind. -/
inductive WellNested : List Char → Prop
  | empty : WellNested []
  | concat {u v : List Char} : WellNested u → WellNested v → WellNested (u ++ v)
  | wrap {o c : Char} {w : List Char} : Matching o c → WellNested w →
      WellNested (o :: (w ++ [c]))

/-- A word that closes every opener of the stack `p` (top first), with well-nested words
in between: the shape of the input still to be read when the scan succeeds. -/
inductive Closes : List Char → List Char → Prop
  | done {w : List Char} : WellNested w → Closes [] w
  | close {o c : Char} {p u v : List Char} : WellNested u → Matching o c → Closes p v →
      Closes (o :: p) (u ++ c :: v)

/-! ## Token lists, accepted types and states used in the statements -/

/-- The tokens of a column list without the opening parenthesis: every column gives its
name and its type, the type followed by `,`, the last one by `)`. -/
def closedTokens : Columns → List Str
  | [] => []
  | [(n, t)] => [n, t ++ [')']]
  | (n, t) :: c :: cs => n :: (t ++ [',']) :: closedTokens (c :: cs)

/-- The token list `["(" + n_1, t_1 + ",", n_2, t_2 + ",", ..., n_k, t_k + ")"]`. -/
def columnTokens (cols : Columns) : List Str :=
  match closedTokens cols with
  | [] => []
  | x :: xs => ('(' :: x) :: xs

/-- The tokens the loop of `parseTableColumns` walks over once both parentheses are
removed. -/
def bareTokens : Columns → List Str
  | [] => []
  | [(n, t)] => [n, t]
  | (n, t) :: c :: cs => n :: (t ++ [',']) :: bareTokens (c :: cs)

/-- The type of the last column. -/
def lastType (cols : Columns) : Str :=
  (cols.getLastD ([], [])).2

/-- The hypothesis on a column: non-empty name, non-empty type not ending in a comma. -/
def PlainColumn (c : Str × Str) : Prop :=
  c.1 ≠ [] ∧ c.2 ≠ [] ∧ c.2.getLast? ≠ some ','

/-- The upper-cased tokens that name a type: one of the four base types, or `VARCHAR(`
followed by decimal digits (possibly none) and `)`. -/
def ValidUpperType (u : Str) : Prop :=
  u = "INT".toList ∨ u = "FLOAT".toList ∨ u = "CHAR".toList ∨ u = "VARCHAR".toList ∨
    ∃ size : Str, (∀ c ∈ size, c.isDigit = true) ∧ u = "VARCHAR(".toList ++ size ++ ")".toList

/-- A state with one registered database named `d`, holding the given tables; `sel` is the
member `database`. -/
def oneDb (tables : List (Str × Table)) (sel : Option Nat) : State :=
  ⟨[⟨"d".toList, tables⟩], [("d".toList, 0)], sel, 1⟩

/-- The canonical serialization `(n_1 t_1, n_2 t_2, ..., n_k t_k)` of a column list. -/
def serializeColumns (cols : Columns) : Str :=
  "(".toList ++ ", ".toList.intercalate (cols.map (fun c => c.1 ++ " ".toList ++ c.2))
    ++ ")".toList

/-- The payload `q_1 w_1 q_1,q_2 w_2 q_2,...,q_n w_n q_n`: every value `w_i` wrapped in its
quote character `q_i`, the wrapped values joined by single commas. -/
def quotedPayload : List (Char × Str) → Str
  | [] => []
  | [(q, w)] => q :: (w ++ [q])
  | (q, w) :: v :: vs => q :: (w ++ [q]) ++ ',' :: quotedPayload (v :: vs)

/-- A table without columns and rows. -/
def emptyTable : Table :=
  ⟨[], []⟩

/-- An instance of the table operations used to evaluate examples: `insertRow` appends the
row and succeeds, `printAll` succeeds. -/
def appendRows : TableOps :=
  ⟨fun t values => (true, { t with rows := t.rows ++ [values] }), fun _ => true⟩

/-- The state invariant of claim C23: the selected database, if there is one, is an object
of the heap that the map `databases` registers under its own name. -/
def selectedRegistered (s : State) : Bool :=
  match s.database with
  | none => true
  | some h =>
    match s.heap[h]? with
    | some db => decide ((db.name, h) ∈ s.databases)
    | none => false

/-! ## The bracket balancer -/

theorem parenthesisBalanceLoop_filter (s : Str) :
    ∀ p, parenthesisBalanceLoop p (s.filter isBracket) = parenthesisBalanceLoop p s := by
  induction s with
  | nil => intro p; rfl
  | cons c s ih =>
    intro p
    by_cases hb : isBracket c = true
    · rw [List.filter_cons_of_pos hb]
      simp only [parenthesisBalanceLoop, ih]
    · rw [List.filter_cons_of_neg hb]
      have hb' := hb
      simp only [isBracket, Bool.decide_or, Bool.or_eq_true, decide_eq_true_eq, not_or] at hb'
      obtain ⟨h1, h2, h3, h4, h5, h6⟩ := hb'
      simp [parenthesisBalanceLoop, h1, h2, h3, h4, h5, h6, ih]

theorem parenthesisBalanceLoop_wellNested {w : List Char} (hw : WellNested w) :
    ∀ p rest, parenthesisBalanceLoop p (w ++ rest) = parenthesisBalanceLoop p rest := by
  induction hw with
  | empty => intro p rest; rfl
  | concat _ _ ihu ihv => intro p rest; rw [List.append_assoc, ihu, ihv]
  | @wrap o c w hm _ ih =>
    intro p rest
    have : o :: (w ++ [c]) ++ rest = o :: (w ++ (c :: rest)) := by simp
    rw [this]
    rcases hm with ⟨rfl, rfl⟩ | ⟨rfl, rfl⟩ | ⟨rfl, rfl⟩
    · simp [parenthesisBalanceLoop, ih]
    · simp [parenthesisBalanceLoop, ih]
    · simp [parenthesisBalanceLoop, ih]

theorem Closes.prepend {x : List Char} (hx : WellNested x) :
    ∀ {p v : List Char}, Closes p v → Closes p (x ++ v) := by
  intro p v h
  cases h with
  | done hw => exact Closes.done (WellNested.concat hx hw)
  | close hu hm hv =>
    rw [← List.append_assoc]
    exact Closes.close (WellNested.concat hx hu) hm hv

theorem Closes.open {o : Char} {p s : List Char} (h : Closes (o :: p) s) :
    Closes p (o :: s) := by
  cases h with
  | @close _ c _ u v hu hm hv =>
    have e : o :: (u ++ c :: v) = (o :: (u ++ [c])) ++ v := by simp
    rw [e]
    exact Closes.prepend (WellNested.wrap hm hu) hv

theorem closes_of_loop (s : Str) :
    ∀ p, parenthesisBalanceLoop p s = true → Closes p (s.filter isBracket) := by
  induction s with
  | nil =>
    intro p h
    cases p with
    | nil => exact Closes.done WellNested.empty
    | cons a p => simp [parenthesisBalanceLoop] at h
  | cons c s ih =>
    intro p h
    unfold parenthesisBalanceLoop at h
    split_ifs at h with h1 h2 h3 h4
    · have hb : isBracket c = true := by
        rcases h1 with rfl | rfl | rfl <;> decide
      rw [List.filter_cons_of_pos hb]
      exact Closes.open (ih _ h)
    · subst h2
      rw [List.filter_cons_of_pos (by decide)]
      cases p with
      | nil => simp at h
      | cons top rest =>
        simp only at h
        split_ifs at h with ht
        simp only [ne_eq, not_not] at ht
        subst ht
        exact @Closes.close _ _ _ [] _ WellNested.empty (Or.inl ⟨rfl, rfl⟩) (ih _ h)
    · subst h3
      rw [List.filter_cons_of_pos (by decide)]
      cases p with
      | nil => simp at h
      | cons top rest =>
        simp only at h
        split_ifs at h with ht
        simp only [ne_eq, not_not] at ht
        subst ht
        exact @Closes.close _ _ _ [] _ WellNested.empty (Or.inr (Or.inl ⟨rfl, rfl⟩)) (ih _ h)
    · subst h4
      rw [List.filter_cons_of_pos (by decide)]
      cases p with
      | nil => simp at h
      | cons top rest =>
        simp only at h
        split_ifs at h with ht
        simp only [ne_eq, not_not] at ht
        subst ht
        exact @Closes.close _ _ _ [] _ WellNested.empty (Or.inr (Or.inr ⟨rfl, rfl⟩)) (ih _ h)
    · have hb : ¬ isBracket c = true := by
        simp only [not_or] at h1
        simp [isBracket, h1.1, h1.2.1, h1.2.2, h2, h3, h4]
      rw [List.filter_cons_of_neg hb]
      exact ih _ h

theorem parenthesisBalance_iff (s : Str) :
    parenthesisBalance s = true ↔ WellNested (s.filter isBracket) := by
  constructor
  · intro h
    have := closes_of_loop s [] h
    cases this with
    | done hw => exact hw
  · intro h
    have := parenthesisBalanceLoop_wellNested h [] []
    rw [List.append_nil, parenthesisBalanceLoop_filter] at this
    exact this

/-- Claim C1. `parenthesisBalance s` is true exactly when the bracket characters of `s`,
all other characters being ignored, form a well-nested word; `CREATE TABLE t (a INT` is
rejected and `CREATE TABLE t (a INT)` is accepted. -/
theorem parenthesisBalance_true_iff_wellNested :
    (∀ s : Str, parenthesisBalance s = true ↔ WellNested (s.filter isBracket)) ∧
    parenthesisBalance "CREATE TABLE t (a INT".toList = false ∧
    parenthesisBalance "CREATE TABLE t (a INT)".toList = true :=
  ⟨parenthesisBalance_iff, by decide, by decide⟩

/-! ## The value list isolator -/

/-- Claim C2 (the code departs from the claim). On the payload
`1, 'hello, world', "quoted"` the space after each comma makes the accumulator non-empty
before the quote is met, so the quotes are kept as literal characters and the comma inside
`'hello, world'` splits the parameter: four strings are returned instead of three. -/
theorem isolateParams_space_after_comma :
    isolateParams "1, 'hello, world', \"quoted\"".toList ',' =
      [ "1".toList, " 'hello".toList, " world'".toList, " \"quoted\"".toList ] :=
  rfl

/-! ## The column list parser -/

/-- Claim C3 (the code departs from the claim). On the two tail tokens `(age` and `INT)`
the returned pair is `("(age", "INT)")`: the opening parenthesis is erased from
`columns[0]` but the copy `tempName` is returned, and the closing parenthesis is removed
only when the character before it is again `)`. -/
theorem parseTableColumns_shorthand_keeps_parentheses :
    parseTableColumns ["(age".toList, "INT)".toList] =
      .ok ⟨none, [("(age".toList, "INT)".toList)]⟩ :=
  rfl

theorem closedTokens_length (cols : Columns) : (closedTokens cols).length = 2 * cols.length := by
  induction cols with
  | nil => rfl
  | cons c cs ih =>
    obtain ⟨n, t⟩ := c
    cases cs with
    | nil => rfl
    | cons c2 cs =>
      simp only [closedTokens, List.length_cons] at ih ⊢
      omega

theorem closedTokens_ne_nil (c : Str × Str) (cs : Columns) : closedTokens (c :: cs) ≠ [] := by
  intro h
  have := closedTokens_length (c :: cs)
  rw [h] at this
  simp at this

theorem closedTokens_getLastD (c : Str × Str) (cs : Columns) :
    (closedTokens (c :: cs)).getLastD [] = lastType (c :: cs) ++ [')'] := by
  induction cs generalizing c with
  | nil => rfl
  | cons c2 cs ih =>
    obtain ⟨n, t⟩ := c
    have h := ih c2
    have hne := closedTokens_ne_nil c2 cs
    simp only [closedTokens, lastType] at h ⊢
    cases hc : closedTokens (c2 :: cs) with
    | nil => exact absurd hc hne
    | cons x xs =>
      rw [hc] at h
      simpa using h

theorem closedTokens_strip (c : Str × Str) (cs : Columns) :
    (closedTokens (c :: cs)).dropLast ++ [(lastType (c :: cs) ++ [')']).dropLast]
      = bareTokens (c :: cs) := by
  induction cs generalizing c with
  | nil => obtain ⟨n, t⟩ := c; simp [closedTokens, bareTokens, lastType]
  | cons c2 cs ih =>
    obtain ⟨n, t⟩ := c
    have h := ih c2
    have hne := closedTokens_ne_nil c2 cs
    cases hc : closedTokens (c2 :: cs) with
    | nil => exact absurd hc hne
    | cons x xs =>
      rw [hc] at h
      simp only [closedTokens, bareTokens, lastType, hc] at h ⊢
      simpa using h

theorem bareTokens_getLastD (c : Str × Str) (cs : Columns) :
    (bareTokens (c :: cs)).getLastD [] = lastType (c :: cs) := by
  induction cs generalizing c with
  | nil => rfl
  | cons c2 cs ih =>
    obtain ⟨n, t⟩ := c
    have h := ih c2
    simp only [bareTokens, lastType] at h ⊢
    cases hc : bareTokens (c2 :: cs) with
    | nil => obtain ⟨n2, t2⟩ := c2; cases cs <;> simp [bareTokens] at hc
    | cons x xs =>
      rw [hc] at h
      simpa using h

theorem getLastD_mem_cons {α : Type} (d a : α) (l : List α) : (a :: l).getLastD d ∈ a :: l := by
  induction l generalizing a with
  | nil => simp
  | cons b l ih =>
    have := ih b
    simp only [List.getLastD_cons] at this ⊢
    exact List.mem_cons_of_mem _ this

theorem flushPair_of_ne_nil {tempName tempType : Str} (res : Columns)
    (hn : tempName ≠ []) (ht : tempType ≠ []) :
    flushPair tempName tempType res = ([], [], res ++ [(tempName, tempType)]) := by
  simp [flushPair, hn, ht]

theorem flushPair_nil_type (tempName : Str) (res : Columns) :
    flushPair tempName [] res = (tempName, [], res) := by
  simp [flushPair]

/-- Loop invariant of `parseLoop` at an even index: when flushing the pending pair leaves
both temporaries empty, the remaining columns are appended to the flushed result in order. -/
theorem parseLoop_bareTokens (N : Nat) (last : Str) :
    ∀ (cs : Columns) (c : Str × Str) (index : Nat) (tempName tempType : Str)
      (res res1 : Columns),
      (∀ x ∈ c :: cs, PlainColumn x) → index % 2 = 0 →
      index + 2 * (c :: cs).length = N → last = lastType (c :: cs) →
      flushPair tempName tempType res = ([], [], res1) →
      parseLoop N last index (bareTokens (c :: cs)) tempName tempType res
        = .ok ⟨none, res1 ++ c :: cs⟩ := by
  intro cs
  induction cs with
  | nil =>
    intro c index tempName tempType res res1 hv he hN hl hf
    obtain ⟨n, t⟩ := c
    obtain ⟨hn, ht, -⟩ := hv (n, t) (List.mem_singleton.mpr rfl)
    simp only at hn ht
    have hodd : (index + 1) % 2 ≠ 0 := by omega
    have hnlt : ¬ (index + 1 < N - 1 ∧ back t ≠ ',') := by
      intro h; simp at hN; omega
    have hl1 : last = t := by simpa [lastType] using hl
    simp only [bareTokens, parseLoop, hf, flushPair_nil_type, he, ne_eq, not_true_eq_false,
      if_false, hodd, not_false_eq_true, if_true]
    rw [if_neg hnlt]
    simp only [hl1, ne_eq, not_true_eq_false, if_false, parseLoop,
      flushPair_of_ne_nil res1 hn ht]
  | cons c2 cs ih =>
    intro c index tempName tempType res res1 hv he hN hl hf
    obtain ⟨n, t⟩ := c
    obtain ⟨hn, ht, -⟩ := hv (n, t) (List.mem_cons_self _ _)
    simp only at hn ht
    have hv2 : ∀ x ∈ c2 :: cs, PlainColumn x := fun x hx => hv x (List.mem_cons_of_mem _ hx)
    have hodd : (index + 1) % 2 ≠ 0 := by omega
    have hl2 : last = lastType (c2 :: cs) := by simpa [lastType] using hl
    have hlast : last ≠ t ++ [','] := by
      intro h
      obtain ⟨-, -, hc⟩ := hv2 _ (getLastD_mem_cons ([], []) c2 cs)
      apply hc
      have : ((c2 :: cs).getLastD ([], [])).2 = t ++ [','] := by rw [← h, hl2]; rfl
      rw [this]
      simp
    have hback : ¬ (index + 1 < N - 1 ∧ back (t ++ [',']) ≠ ',') := by simp [back]
    have key := ih c2 (index + 2) n t res1 (res1 ++ [(n, t)]) hv2 (by omega)
      (by simp at hN ⊢; omega) hl2 (flushPair_of_ne_nil res1 hn ht)
    simp only [bareTokens, parseLoop, hf, flushPair_nil_type, he, ne_eq, not_true_eq_false,
      if_false, hodd, not_false_eq_true, if_true]
    rw [if_neg hback, if_pos hlast]
    cases hcm : t ++ [','] with
    | nil => simp at hcm
    | cons a l =>
      simp only
      rw [← hcm, List.dropLast_concat, key]
      simp

/-- Claim C4. For every list of at least two columns whose names are non-empty and whose
types are non-empty and do not end with a comma, `parseTableColumns` on the tokens
`"(" + n_1, t_1 + ",", ..., n_k, t_k + ")"` returns exactly these columns, in declaration
order, and prints no diagnostic. -/
theorem parseTableColumns_columnTokens (cols : Columns) (hk : 2 ≤ cols.length)
    (hv : ∀ c ∈ cols, c.1 ≠ [] ∧ c.2 ≠ [] ∧ c.2.getLast? ≠ some ',') :
    parseTableColumns (columnTokens cols) = .ok ⟨none, cols⟩ := by
  match cols, hk, hv with
  | (n, t) :: c2 :: cs, _, hv =>
    have hlen := closedTokens_length (c2 :: cs)
    have hne := closedTokens_ne_nil c2 cs
    have hlastD := closedTokens_getLastD c2 cs
    have hstrip := closedTokens_strip c2 cs
    have hloop := parseLoop_bareTokens (2 * ((n, t) :: c2 :: cs).length)
      (lastType ((n, t) :: c2 :: cs)) (c2 :: cs) (n, t) 0 [] [] [] [] hv rfl (by simp) rfl
      (flushPair_nil_type [] [])
    generalize hct : closedTokens (c2 :: cs) = ct at hlen hne hlastD hstrip
    match ct, hne with
    | [x], _ => simp at hlen; omega
    | x :: y :: zs, _ =>
      have e : columnTokens ((n, t) :: c2 :: cs) = ('(' :: n) :: (t ++ [',']) :: x :: y :: zs := by
        simp [columnTokens, closedTokens, hct]
      have hb : bareTokens ((n, t) :: c2 :: cs) = n :: (t ++ [',']) :: bareTokens (c2 :: cs) := rfl
      have hlt : lastType ((n, t) :: c2 :: cs) = lastType (c2 :: cs) := by simp [lastType]
      have hlen2 : (('(' :: n) :: (t ++ [',']) :: x :: y :: zs).length
          = 2 * ((n, t) :: c2 :: cs).length := by
        simp only [List.length_cons] at hlen ⊢; omega
      have hgl : (('(' :: n) :: (t ++ [',']) :: x :: y :: zs).getLastD []
          = lastType (c2 :: cs) ++ [')'] := by
        simpa [List.getLastD_cons] using hlastD
      have hcol : (('(' :: n) :: (t ++ [',']) :: x :: y :: zs).dropLast
          ++ [List.dropLast (lastType (c2 :: cs) ++ [')'])]
          = ('(' :: n) :: (t ++ [',']) :: bareTokens (c2 :: cs) := by
        rw [← hstrip]; simp [List.dropLast]
      have hbl := bareTokens_getLastD (n, t) (c2 :: cs)
      rw [hb] at hbl hloop
      have hpos : ¬ (2 * ((n, t) :: c2 :: cs).length = 0) := by simp
      have heven : ¬ (2 * ((n, t) :: c2 :: cs).length % 2 ≠ 0) := by simp
      have hbk : back (lastType (c2 :: cs) ++ [')']) = ')' := by simp [back]
      rw [e]
      unfold parseTableColumns
      simp only [hlen2, hgl, hcol, hpos, heven, if_false, List.headD_cons, front, List.tail_cons,
        hbk, not_true_eq_false, or_self, hbl, hloop, List.nil_append]

/-- Witness of claim C4: the tokens of `(id INT, name VARCHAR(10))`. -/
theorem parseTableColumns_columnTokens_witness :
    split "(id INT, name VARCHAR(10))".toList ' ' =
      columnTokens [("id".toList, "INT".toList), ("name".toList, "VARCHAR(10)".toList)] ∧
    parseTableColumns
        (columnTokens [("id".toList, "INT".toList), ("name".toList, "VARCHAR(10)".toList)]) =
      .ok ⟨none, [("id".toList, "INT".toList), ("name".toList, "VARCHAR(10)".toList)]⟩ :=
  ⟨by decide,
   parseTableColumns_columnTokens
     [("id".toList, "INT".toList), ("name".toList, "VARCHAR(10)".toList)]
     (by decide) (by decide)⟩

/-! ## The type validator -/

theorem isdigit_eq (c : Char) : isdigit c = c.isDigit := by
  simp [isdigit, Char.isDigit, Char.le_def, UInt32.le_def]

theorem types_any_iff (u : Str) :
    types.any (fun e => e.1 = u) = true ↔
      (u = "INT".toList ∨ u = "FLOAT".toList ∨ u = "CHAR".toList ∨ u = "VARCHAR".toList) := by
  simp only [types, List.any_cons, List.any_nil, Bool.or_false, Bool.or_eq_true,
    decide_eq_true_eq]
  constructor
  · rintro (h | h | h | h) <;> simp [← h]
  · rintro (h | h | h | h) <;> simp [h]

/-- A string that starts with the eight characters `VARCHAR(` and ends with `)` is
`VARCHAR(` followed by the slice the code takes as the size, followed by `)`. -/
theorem varchar_shape (u : Str) (h8 : u.take 8 = "VARCHAR(".toList)
    (hl : u.getLast? = some ')') :
    u = "VARCHAR(".toList ++ (u.drop 8).take (u.length - 9) ++ ")".toList := by
  have hu : u = "VARCHAR(".toList ++ u.drop 8 := by
    conv_lhs => rw [← List.take_append_drop 8 u, h8]
  have hlen8 : 8 ≤ u.length := by
    by_contra hlt
    have := congrArg List.length h8
    simp at this
    omega
  have hd : u.drop 8 ≠ [] := by
    intro hd
    rw [hd, List.append_nil] at hu
    rw [hu] at hl
    simp at hl
  have hl2 : (u.drop 8).getLast? = some ')' := by
    rw [hu, List.getLast?_append_of_ne_nil _ hd] at hl
    exact hl
  have hdl : u.drop 8 = (u.drop 8).dropLast ++ [')'] := by
    have := List.dropLast_append_getLast? ')' (by simpa using hl2)
    exact this.symm
  have htk : (u.drop 8).take (u.length - 9) = (u.drop 8).dropLast := by
    rw [List.dropLast_eq_take, List.length_drop]
    congr 1
  conv_lhs => rw [hu, hdl]
  rw [htk]
  simp

theorem size_slice (size : Str) :
    (("VARCHAR(".toList ++ size ++ ")".toList).drop 8).take
      (("VARCHAR(".toList ++ size ++ ")".toList).length - 9) = size := by
  simp

theorem typeErrors_eq_nil_iff (type : Str) :
    typeErrors type = [] ↔ ValidUpperType (_toUpper type) := by
  unfold typeErrors
  generalize _toUpper type = u
  by_cases hb : types.any (fun e => e.1 = u) = true
  · have hv : ValidUpperType u := by
      rcases (types_any_iff u).mp hb with h | h | h | h
      · exact Or.inl h
      · exact Or.inr (Or.inl h)
      · exact Or.inr (Or.inr (Or.inl h))
      · exact Or.inr (Or.inr (Or.inr (Or.inl h)))
    simp [hb, hv]
  · have hb4 := mt (types_any_iff u).mpr hb
    by_cases hc : u.take 8 = "VARCHAR(".toList ∧ u.getLast? = some ')'
    · have hshape := varchar_shape u hc.1 hc.2
      rw [if_pos hb, if_pos hc]
      simp only []
      generalize hnum : (u.drop 8).take (u.length - 9) = num at hshape
      constructor
      · intro h
        rw [List.append_eq_nil] at h
        have hf := h.2
        rw [List.map_eq_nil_iff, List.filter_eq_nil_iff] at hf
        refine Or.inr (Or.inr (Or.inr (Or.inr ⟨num, ?_, hshape⟩)))
        intro c hcm
        have := hf c hcm
        rw [← isdigit_eq]
        simpa using this
      · rintro (h | h | h | h | ⟨size, hs, hu⟩)
        · exact absurd (Or.inl h) hb4
        · exact absurd (Or.inr (Or.inl h)) hb4
        · exact absurd (Or.inr (Or.inr (Or.inl h))) hb4
        · exact absurd (Or.inr (Or.inr (Or.inr h))) hb4
        · have hns : num = size := by
            rw [← hnum, hu]; exact size_slice size
          subst hns
          have hall : ∀ c ∈ num, isdigit c = true := fun c hcm => by
            rw [isdigit_eq]; exact hs c hcm
          have hfront : ¬ (front num = '-') := by
            intro hfr
            cases num with
            | nil => simp [front] at hfr
            | cons a l =>
              simp only [front, List.headD_cons] at hfr
              have := hall a (List.mem_cons_self _ _)
              rw [hfr] at this
              exact absurd this (by decide)
          rw [List.append_eq_nil]
          refine ⟨by simp [hfront], ?_⟩
          rw [List.map_eq_nil_iff, List.filter_eq_nil_iff]
          intro c hcm
          simp [hall c hcm]
    · rw [if_pos hb, if_neg hc]
      constructor
      · intro h; simp at h
      · rintro (h | h | h | h | ⟨size, hs, hu⟩)
        · exact absurd (Or.inl h) hb4
        · exact absurd (Or.inr (Or.inl h)) hb4
        · exact absurd (Or.inr (Or.inr (Or.inl h))) hb4
        · exact absurd (Or.inr (Or.inr (Or.inr h))) hb4
        · exfalso
          apply hc
          rw [hu]
          constructor
          · simp
          · rw [List.getLast?_append_of_ne_nil _ (by decide)]
            rfl

theorem checkTypes_iff (tokens : List Str) :
    checkTypes tokens = true ↔ ∀ t ∈ tokens, ValidUpperType (_toUpper t) := by
  unfold checkTypes checkTypesErrors
  simp only [ne_eq, List.length_eq_zero, ite_not, Bool.if_false_right, Bool.and_true,
    decide_eq_true_eq, List.flatten_eq_nil_iff, List.mem_map, forall_exists_index, and_imp,
    forall_apply_eq_imp_iff₂]
  exact forall₂_congr fun t _ => typeErrors_eq_nil_iff t

/-- Claim C5. `checkTypes` returns true exactly when every token, once upper-cased, is one of
`INT`, `FLOAT`, `CHAR`, `VARCHAR`, or `VARCHAR(` + decimal digits (possibly none) + `)`.
The five forms `INT`, `FLOAT`, `CHAR`, `VARCHAR`, `VARCHAR(255)` are accepted in any letter
case; `VARCHAR(-1)`, `VARCHAR(12a)` and `INT(5)` are rejected. -/
theorem checkTypes_true_iff_valid :
    (∀ tokens : List Str,
      checkTypes tokens = true ↔ ∀ t ∈ tokens, ValidUpperType (_toUpper t)) ∧
    (∀ t : Str,
      _toUpper t ∈ ["INT".toList, "FLOAT".toList, "CHAR".toList, "VARCHAR".toList,
        "VARCHAR(255)".toList] → checkTypes [t] = true) ∧
    checkTypes ["int".toList, "Float".toList, "cHAR".toList, "varchar".toList,
      "VarChar(255)".toList] = true ∧
    checkTypes ["VARCHAR(-1)".toList] = false ∧
    checkTypes ["VARCHAR(12a)".toList] = false ∧
    checkTypes ["INT(5)".toList] = false := by
  refine ⟨checkTypes_iff, ?_, by decide, by decide, by decide, by decide⟩
  intro t ht
  rw [checkTypes_iff]
  intro x hx
  rw [List.mem_singleton] at hx
  subst hx
  simp only [List.mem_cons, List.mem_singleton, List.not_mem_nil, or_false] at ht
  rcases ht with h | h | h | h | h
  · exact Or.inl h
  · exact Or.inr (Or.inl h)
  · exact Or.inr (Or.inr (Or.inl h))
  · exact Or.inr (Or.inr (Or.inr (Or.inl h)))
  · refine Or.inr (Or.inr (Or.inr (Or.inr ⟨"255".toList, by decide, ?_⟩)))
    rw [h]
    rfl

/-- Witness of claim C5: the lower-case token `varchar(255)` is accepted. -/
theorem checkTypes_true_iff_valid_witness :
    checkTypes ["varchar(255)".toList] = true :=
  checkTypes_true_iff_valid.2.1 "varchar(255)".toList (by decide)

/-! ## The command handlers on concrete statements -/

/-- Claim C6 (the code departs from the claim). With database `d` selected and no table
`t`, the column tails of `CREATE TABLE t (a INT, b)` (odd count), `CREATE TABLE t a INT, b
FLOAT` (not wrapped) and `CREATE TABLE t (a INT b FLOAT)` (missing comma) are rejected by
`parseTableColumns`, which prints its diagnostic and returns the empty list; `createTable`
then creates the table `t` without columns and returns true. -/
theorem createTable_after_rejected_tail :
    parseTableColumns ["(a".toList, "INT,".toList, "b)".toList] =
      .ok ⟨some ParseDiag.oddColumnArguments, []⟩ ∧
    createTable (oneDb [] (some 0))
        ["CREATE".toList, "TABLE".toList, "t".toList, "(a".toList, "INT,".toList, "b)".toList] =
      .ok (true, oneDb [("t".toList, ⟨[], []⟩)] (some 0)) ∧
    parseTableColumns ["a".toList, "INT,".toList, "b".toList, "FLOAT".toList] =
      .ok ⟨some ParseDiag.notWrapped, []⟩ ∧
    createTable (oneDb [] (some 0))
        ["CREATE".toList, "TABLE".toList, "t".toList, "a".toList, "INT,".toList, "b".toList,
          "FLOAT".toList] =
      .ok (true, oneDb [("t".toList, ⟨[], []⟩)] (some 0)) ∧
    parseTableColumns ["(a".toList, "INT".toList, "b".toList, "FLOAT)".toList] =
      .ok ⟨some (ParseDiag.missingComma "INT".toList), []⟩ ∧
    createTable (oneDb [] (some 0))
        ["CREATE".toList, "TABLE".toList, "t".toList, "(a".toList, "INT".toList, "b".toList,
          "FLOAT)".toList] =
      .ok (true, oneDb [("t".toList, ⟨[], []⟩)] (some 0)) :=
  ⟨rfl, rfl, rfl, rfl, rfl, rfl⟩

/-- Claim C7 (the code departs from the claim). In every state, `HANDLE_CMD` on the empty
token list calls `back()` on an empty vector, and on the token lists `USE`, `CREATE` and
`CREATE TABLE` it reads a token past the end of the list: undefined behaviour instead of a
failure result. -/
theorem HANDLE_CMD_too_few_tokens (K : TableOps) (s : State) :
    HANDLE_CMD K s [] = .error Fault.emptyBack ∧
    HANDLE_CMD K s ["USE".toList] = .error Fault.outOfRange ∧
    HANDLE_CMD K s ["CREATE".toList] = .error Fault.outOfRange ∧
    HANDLE_CMD K s ["CREATE".toList, "TABLE".toList] = .error Fault.outOfRange :=
  ⟨rfl, rfl, rfl, rfl⟩

/-- Claim C8 (the code departs from the claim). `DROP TABLE t x y`, with the database `d`
selected and holding table `t`, is not rejected for its two surplus tokens: the table is
dropped and `HANDLE_CMD` returns true. -/
theorem HANDLE_CMD_dropTable_surplus (K : TableOps) :
    HANDLE_CMD K (oneDb [("t".toList, ⟨[], []⟩)] (some 0))
        ["DROP".toList, "TABLE".toList, "t".toList, "x".toList, "y".toList] =
      .ok (true, oneDb [] (some 0)) :=
  rfl

/-- Claim C9 (the code departs from the claim). With the database `d` registered and none
selected, `USE d` selects it and returns true, while `use d` returns false and leaves the
selection empty. -/
theorem HANDLE_CMD_use_letter_case (K : TableOps) :
    HANDLE_CMD K (oneDb [] none) ["USE".toList, "d".toList] = .ok (true, oneDb [] (some 0)) ∧
    HANDLE_CMD K (oneDb [] none) ["use".toList, "d".toList] = .ok (false, oneDb [] none) :=
  ⟨rfl, rfl⟩

/-- Claim C10 (the code departs from the claim). With no database selected,
`SELECT * FROM t` and `ALTER TABLE t (a INT)` dereference the null `database` pointer
instead of returning failure. -/
theorem HANDLE_CMD_no_database_selected (K : TableOps) :
    HANDLE_CMD K (oneDb [] none)
        ["SELECT".toList, "*".toList, "FROM".toList, "t".toList] = .error Fault.nullDeref ∧
    HANDLE_CMD K (oneDb [] none)
        ["ALTER".toList, "TABLE".toList, "t".toList, "(a".toList, "INT)".toList] =
      .error Fault.nullDeref :=
  ⟨rfl, rfl⟩

/-! ## Re-parsing a serialized column list -/

/-- Claim C11 (the code departs from the claim). The tail `age INT` parses to the single
column `("age", "INT")`; its canonical serialization `(age INT)` splits into `(age` and
`INT)`, which the two-token branch parses to `("(age", "INT)")`, a different list. -/
theorem parseTableColumns_reparse_single_column :
    parseTableColumns ["age".toList, "INT".toList] =
      .ok ⟨none, [("age".toList, "INT".toList)]⟩ ∧
    split (serializeColumns [("age".toList, "INT".toList)]) ' ' =
      ["(age".toList, "INT)".toList] ∧
    parseTableColumns (split (serializeColumns [("age".toList, "INT".toList)]) ' ') =
      .ok ⟨none, [("(age".toList, "INT)".toList)]⟩ :=
  ⟨rfl, rfl, rfl⟩

/-! ## Odd column tails -/

/-- Claim C12. On every tail with an odd number of tokens `parseTableColumns` prints the
odd-count diagnostic and returns the empty list, whatever the tokens contain. -/
theorem parseTableColumns_odd (columns : List Str) (h : columns.length % 2 = 1) :
    parseTableColumns columns = .ok ⟨some ParseDiag.oddColumnArguments, []⟩ := by
  match columns, h with
  | [], h => simp at h
  | [a], _ => rfl
  | [a, b], h => simp at h
  | a :: b :: c :: l, h =>
    have hne : ¬ ((a :: b :: c :: l).length = 0) := by simp
    have hodd : (a :: b :: c :: l).length % 2 ≠ 0 := by omega
    simp only [parseTableColumns, hne, if_false]
    rw [if_pos hodd]

/-- Witness of claim C12: the three tokens of `(a INT, b)`. -/
theorem parseTableColumns_odd_witness :
    split "(a INT, b)".toList ' ' = ["(a".toList, "INT,".toList, "b)".toList] ∧
    parseTableColumns (split "(a INT, b)".toList ' ') =
      .ok ⟨some ParseDiag.oddColumnArguments, []⟩ :=
  ⟨rfl, parseTableColumns_odd (split "(a INT, b)".toList ' ') (by decide)⟩

/-! ## Aggregated type errors -/

theorem checkTypesErrors_flatten (tokens : List Str) :
    checkTypesErrors tokens = (tokens.map (fun t => checkTypesErrors [t])).flatten := by
  simp [checkTypesErrors, List.map_map, Function.comp_def]

theorem checkTypesErrors_singleton_nil_iff (t : Str) :
    checkTypesErrors [t] = [] ↔ ValidUpperType (_toUpper t) := by
  simp [checkTypesErrors, typeErrors_eq_nil_iff]

theorem typeErrors_unknown (t : Str)
    (hcat : _toUpper t ∉ ["INT".toList, "FLOAT".toList, "CHAR".toList, "VARCHAR".toList])
    (hform : ¬ ∃ body : Str, _toUpper t = "VARCHAR(".toList ++ body ++ ")".toList) :
    typeErrors t = ["-- TYPE ERORR: Unknown type: ".toList ++ t ++ "\n".toList] := by
  unfold typeErrors
  have hb : ¬ (types.any (fun e => e.1 = _toUpper t) = true) := by
    intro h
    apply hcat
    rcases (types_any_iff _).mp h with h | h | h | h <;> simp [h]
  have hc : ¬ ((_toUpper t).take 8 = "VARCHAR(".toList ∧ (_toUpper t).getLast? = some ')') := by
    intro h
    exact hform ⟨_, varchar_shape _ h.1 h.2⟩
  simp only []
  rw [if_pos hb, if_neg hc]

/-- Claim C13. The error list of `checkTypes` is the concatenation, in token order, of the
messages of each token taken alone; a token has no message exactly when it is valid, so every
invalid token has at least one, whatever precedes it; a token that is neither a base type
nor of the form `VARCHAR(...)` gets the single message naming it as typed. On
`VARCHAR(-1), VARCHAR(12a)` both sizes are reported and the result is false. -/
theorem checkTypesErrors_aggregated :
    (∀ tokens : List Str,
      checkTypesErrors tokens = (tokens.map (fun t => checkTypesErrors [t])).flatten) ∧
    (∀ t : Str, checkTypesErrors [t] = [] ↔ ValidUpperType (_toUpper t)) ∧
    (∀ t : Str,
      _toUpper t ∉ ["INT".toList, "FLOAT".toList, "CHAR".toList, "VARCHAR".toList] →
      (¬ ∃ body : Str, _toUpper t = "VARCHAR(".toList ++ body ++ ")".toList) →
      checkTypesErrors [t] = ["-- TYPE ERORR: Unknown type: ".toList ++ t ++ "\n".toList]) ∧
    checkTypesErrors ["VARCHAR(-1)".toList, "VARCHAR(12a)".toList] =
      ["-- TYPE ERORR: VARCHAR size (-1) cannot be negative.\n".toList,
       "-- TYPE ERROR: VARCHAR size (-1) contains non digit characters.\n".toList,
       "-- TYPE ERROR: VARCHAR size (12A) contains non digit characters.\n".toList] ∧
    checkTypes ["VARCHAR(-1)".toList, "VARCHAR(12a)".toList] = false := by
  refine ⟨checkTypesErrors_flatten, checkTypesErrors_singleton_nil_iff, ?_, by decide,
    by decide⟩
  intro t hcat hform
  simp only [checkTypesErrors, List.map_cons, List.map_nil, List.flatten_cons,
    List.flatten_nil, List.append_nil]
  exact typeErrors_unknown t hcat hform

/-- Witness of claim C13: the unknown type `Blob` is reported as typed. -/
theorem checkTypesErrors_aggregated_witness :
    checkTypesErrors ["Blob".toList] = ["-- TYPE ERORR: Unknown type: Blob\n".toList] :=
  checkTypesErrors_aggregated.2.2.1 "Blob".toList (by decide)
    (by
      rintro ⟨body, h⟩
      have e1 : _toUpper "Blob".toList = 'B' :: "LOB".toList := rfl
      have e2 : "VARCHAR(".toList ++ body ++ ")".toList
          = 'V' :: ("ARCHAR(".toList ++ body ++ ")".toList) := rfl
      rw [e1, e2] at h
      exact absurd (List.head_eq_of_cons_eq h) (by decide))

/-! ## `ALTER TABLE` -/

/-- Claim C14 (the code departs from the claim). With table `t` in the selected database,
`ALTER TABLE t ADD (a BOGUS, b INT)` returns true and adds both columns although
`checkTypes` rejects `BOGUS`; `ALTER TABLE t (a BOGUS, b INT)` returns true as well. -/
theorem alterTable_skips_checkTypes :
    checkTypes ["BOGUS".toList, "INT".toList] = false ∧
    alterTable (oneDb [("t".toList, emptyTable)] (some 0))
        ["ALTER".toList, "TABLE".toList, "t".toList, "ADD".toList, "(a".toList,
          "BOGUS,".toList, "b".toList, "INT)".toList] =
      .ok (true, oneDb [("t".toList,
        ⟨[("a".toList, "BOGUS".toList), ("b".toList, "INT".toList)], []⟩)] (some 0)) ∧
    alterTable (oneDb [("t".toList, emptyTable)] (some 0))
        ["ALTER".toList, "TABLE".toList, "t".toList, "(a".toList, "BOGUS,".toList,
          "b".toList, "INT)".toList] =
      .ok (true, oneDb [("t".toList, emptyTable)] (some 0)) :=
  ⟨by decide, rfl, rfl⟩

/-- Claim C15 as stated fails. For `ALTER TABLE t (a INT, b FLOAT)` the parser gives
`[("a","INT"),("b","FLOAT")]` on the tokens from index 3 on, but `alterTable` parses the
tokens from index 4 on, an odd tail, and leaves table `t` without columns. -/
theorem alterTable_tail_not_from_index_three :
    parseTableColumns (["ALTER".toList, "TABLE".toList, "t".toList, "(a".toList,
        "INT,".toList, "b".toList, "FLOAT)".toList].drop 3) =
      .ok ⟨none, [("a".toList, "INT".toList), ("b".toList, "FLOAT".toList)]⟩ ∧
    alterTable (oneDb [("t".toList, emptyTable)] (some 0))
        ["ALTER".toList, "TABLE".toList, "t".toList, "(a".toList, "INT,".toList,
          "b".toList, "FLOAT)".toList] =
      .ok (true, oneDb [("t".toList, emptyTable)] (some 0)) ∧
    oneDb [("t".toList, emptyTable)] (some 0) ≠
      oneDb [("t".toList,
        ⟨[("a".toList, "INT".toList), ("b".toList, "FLOAT".toList)], []⟩)] (some 0) :=
  ⟨rfl, rfl, by decide⟩

/-- Claim C15, amended. In `ALTER TABLE name x c_1 ... c_m`, on an existing table of the
selected database, the fourth token `x` is read as the alter type and the columns handed to
`addColumnsToTable` are the result of `parseTableColumns` on the tokens from index 4 on. -/
theorem alterTable_tail_from_index_four (s : State) (h : Nat) (db : Database) (table_name a3 : Str)
    (tail : List Str) (parsed : Parsed)
    (hs : s.selected = .ok (h, db)) (ht : db.tableExists table_name = true)
    (hp : parseTableColumns tail = .ok parsed) :
    alterTable s ("ALTER".toList :: "TABLE".toList :: table_name :: a3 :: tail) =
      .ok (true, s.store h (db.addColumnsToTable table_name parsed.columns)) := by
  simp [alterTable, elemAt, hp, hs, ht, bind, Except.bind, pure, Except.pure]

/-- Witness of claim C15, amended: `ALTER TABLE t ADD (a INT, b FLOAT)`. -/
theorem alterTable_tail_from_index_four_witness :
    alterTable (oneDb [("t".toList, emptyTable)] (some 0))
        ["ALTER".toList, "TABLE".toList, "t".toList, "ADD".toList, "(a".toList,
          "INT,".toList, "b".toList, "FLOAT)".toList] =
      .ok (true, oneDb [("t".toList,
        ⟨[("a".toList, "INT".toList), ("b".toList, "FLOAT".toList)], []⟩)] (some 0)) :=
  alterTable_tail_from_index_four (oneDb [("t".toList, emptyTable)] (some 0)) 0
    ⟨"d".toList, [("t".toList, emptyTable)]⟩ "t".toList "ADD".toList
    ["(a".toList, "INT,".toList, "b".toList, "FLOAT)".toList]
    ⟨none, [("a".toList, "INT".toList), ("b".toList, "FLOAT".toList)]⟩ rfl rfl rfl

/-! ## The lexer -/

theorem splitLoop_ne_nil (d : Char) (s token : Str) : splitLoop d s token ≠ [] := by
  induction s generalizing token with
  | nil => simp [splitLoop]
  | cons c s ih =>
    unfold splitLoop
    split_ifs with h
    · cases s <;> simp
    · exact ih _

theorem splitLoop_no_delimiter (d : Char) (s : Str) :
    ∀ token : Str, d ∉ token → ∀ tok ∈ splitLoop d s token, d ∉ tok := by
  induction s with
  | nil =>
    intro token ht tok htok
    simp only [splitLoop, List.mem_singleton] at htok
    rw [htok]; exact ht
  | cons c s ih =>
    intro token ht tok htok
    unfold splitLoop at htok
    split_ifs at htok with h
    · cases s with
      | nil =>
        simp only [List.mem_singleton] at htok
        rw [htok]; exact ht
      | cons c2 s2 =>
        simp only [List.mem_cons] at htok
        rcases htok with h1 | h1
        · rw [h1]; exact ht
        · exact ih [] (by simp) tok h1
    · refine ih (token ++ [c]) ?_ tok htok
      intro hm
      rw [List.mem_append, List.mem_singleton] at hm
      rcases hm with hm | hm
      · exact ht hm
      · exact h hm.symm

theorem intercalate_cons_of_ne_nil (sep x : Str) (l : List Str) (hl : l ≠ []) :
    sep.intercalate (x :: l) = x ++ sep ++ sep.intercalate l := by
  cases l with
  | nil => exact absurd rfl hl
  | cons y ys => simp [List.intercalate, List.intersperse]

theorem splitLoop_intercalate (d : Char) (s : Str) :
    ∀ token : Str,
      [d].intercalate (splitLoop d s token) = token ++ s ∨
      [d].intercalate (splitLoop d s token) ++ [d] = token ++ s := by
  induction s with
  | nil => intro token; left; simp [splitLoop, List.intercalate]
  | cons c s ih =>
    intro token
    unfold splitLoop
    split_ifs with h
    · subst h
      cases s with
      | nil => right; simp [List.intercalate]
      | cons c2 s2 =>
        simp only
        rw [intercalate_cons_of_ne_nil _ _ _ (splitLoop_ne_nil _ _ _)]
        rcases ih [] with h1 | h1
        · left; rw [h1]; simp
        · right; rw [List.append_assoc, h1]; simp
    · rcases ih (token ++ [c]) with h1 | h1
      · left; rw [h1]; simp
      · right; rw [h1]; simp

theorem split_spec (s : Str) (d : Char) :
    (∀ tok ∈ split s d, d ∉ tok) ∧
    ([d].intercalate (split s d) = s ∨ [d].intercalate (split s d) ++ [d] = s) := by
  cases s with
  | nil => simp [split, List.intercalate]
  | cons c s =>
    refine ⟨splitLoop_no_delimiter d (c :: s) [] (by simp), ?_⟩
    simpa [split] using splitLoop_intercalate d (c :: s) []

/-- Claim C16 as stated fails: `CREATE  TABLE t`, with two spaces, yields an empty token. -/
theorem split_yields_empty_token :
    split "CREATE  TABLE t".toList ' ' =
      ["CREATE".toList, [], "TABLE".toList, "t".toList] ∧
    ¬ ∀ tok ∈ split "CREATE  TABLE t".toList ' ', tok ≠ [] :=
  ⟨rfl, by decide⟩

/-- Claim C16, amended. No token returned by `split(line, ' ')` contains a space, and the
tokens joined by single spaces give the line back, up to one dropped final space; tokens
may be empty. -/
theorem split_tokens_without_space (line : Str) :
    (∀ tok ∈ split line ' ', ' ' ∉ tok) ∧
    ([' '].intercalate (split line ' ') = line ∨
      [' '].intercalate (split line ' ') ++ [' '] = line) :=
  split_spec line ' '

theorem stripTerminator_semicolon (front : List Str) (tok : Str) :
    stripTerminator (front ++ [tok ++ [';']]) = .ok (front ++ [tok]) := by
  simp [stripTerminator, back]

theorem stripTerminator_other (front : List Str) (tok : Str) (c : Char) (hc : c ≠ ';') :
    stripTerminator (front ++ [tok ++ [c]]) = .ok (front ++ [tok ++ [c]]) := by
  simp [stripTerminator, back, hc]

theorem stripTerminator_empty_last (front : List Str) :
    stripTerminator (front ++ [[]]) = .ok (front ++ [[]]) := by
  simp [stripTerminator, back]

/-- Claim C17. For every non-empty token list, a final token ending with `;` loses exactly
that one character (`db;;` becomes `db;`), and a final token ending with another character,
or empty, is kept; the other tokens are untouched and no letter changes case. For the line
`USE d` followed by two spaces the final token is empty: it is kept, and `HANDLE_CMD`
returns false for the surplus token. -/
theorem stripTerminator_final_token :
    (∀ (front : List Str) (tok : Str),
      stripTerminator (front ++ [tok ++ [';']]) = .ok (front ++ [tok])) ∧
    (∀ (front : List Str) (tok : Str) (c : Char), c ≠ ';' →
      stripTerminator (front ++ [tok ++ [c]]) = .ok (front ++ [tok ++ [c]])) ∧
    (∀ front : List Str, stripTerminator (front ++ [[]]) = .ok (front ++ [[]])) ∧
    stripTerminator ["USE".toList, "db;;".toList] = .ok ["USE".toList, "db;".toList] ∧
    split "USE d  ".toList ' ' = ["USE".toList, "d".toList, []] ∧
    stripTerminator (split "USE d  ".toList ' ') = .ok ["USE".toList, "d".toList, []] ∧
    (∀ (K : TableOps) (s : State),
      HANDLE_CMD K s (split "USE d  ".toList ' ') = .ok (false, s)) :=
  ⟨stripTerminator_semicolon, stripTerminator_other, stripTerminator_empty_last, rfl, rfl,
    rfl, fun _ _ => rfl⟩

/-- Witness of claim C17: the final token `Db` of `use Db` is kept, letter case included. -/
theorem stripTerminator_final_token_witness :
    stripTerminator (["use".toList] ++ ["D".toList ++ ['b']]) =
      .ok (["use".toList] ++ ["D".toList ++ ['b']]) :=
  stripTerminator_final_token.2.1 ["use".toList] "D".toList 'b' (by decide)

/-! ## The command loop -/

/-- Claim C18. On a line that `parenthesisBalance` rejects, one round of `SQL_CLI` neither
splits the line nor calls `HANDLE_CMD`: it goes on with the state it started with. -/
theorem SQL_CLI_step_unbalanced (K : TableOps) (s : State) (input : Str)
    (h : parenthesisBalance input = false) :
    SQL_CLI_step K s input = .ok (some s) := by
  simp [SQL_CLI_step, h]

/-- Witness of claim C18: the unbalanced line `CREATE DATABASE x)` would create a database
if it were dispatched, and leaves the initial state unchanged. -/
theorem SQL_CLI_step_unbalanced_witness :
    parenthesisBalance "CREATE DATABASE x)".toList = false ∧
    HANDLE_CMD appendRows State.init (split "CREATE DATABASE x)".toList ' ') =
      .ok (true, ⟨[⟨"x)".toList, []⟩], [("x)".toList, 0)], none, 1⟩) ∧
    SQL_CLI_step appendRows State.init "CREATE DATABASE x)".toList = .ok (some State.init) :=
  ⟨by decide, rfl,
   SQL_CLI_step_unbalanced appendRows State.init "CREATE DATABASE x)".toList (by decide)⟩

/-! ## `INSERT INTO` -/

theorem isolate_append (done : List Str) (cur : Str) (qs : List Char) (c : Char) :
    IsolateState.append ⟨done ++ [cur], done.length, qs⟩ c
      = ⟨done ++ [cur ++ [c]], done.length, qs⟩ := by
  simp [IsolateState.append, List.getD]

theorem isolateStep_delim (delim : Char) (done : List Str) (cur : Str) :
    isolateStep delim ⟨done ++ [cur], done.length, []⟩ delim
      = ⟨(done ++ [cur]) ++ [[]], (done ++ [cur]).length, []⟩ := by
  simp [isolateStep]

theorem isolateStep_open (delim q : Char) (done : List Str)
    (hq : q = Char.ofNat 34 ∨ q = Char.ofNat 39) (hd : q ≠ delim) :
    isolateStep delim ⟨done ++ [[]], done.length, []⟩ q = ⟨done ++ [[]], done.length, [q]⟩ := by
  rcases hq with rfl | rfl
  · simp [isolateStep, IsolateState.quote, hd, List.getD]
  · have h : ¬ (Char.ofNat 39 = Char.ofNat 34) := by decide
    simp [isolateStep, IsolateState.quote, hd, h, List.getD]

theorem isolateStep_close (delim q : Char) (done : List Str) (cur : Str)
    (hq : q = Char.ofNat 34 ∨ q = Char.ofNat 39) :
    isolateStep delim ⟨done ++ [cur], done.length, [q]⟩ q = ⟨done ++ [cur], done.length, []⟩ := by
  rcases hq with rfl | rfl
  · simp [isolateStep, IsolateState.quote]
  · have h : ¬ (Char.ofNat 39 = Char.ofNat 34) := by decide
    simp [isolateStep, IsolateState.quote, h]

theorem isolateStep_inside (delim q c : Char) (done : List Str) (cur : Str) (hc : c ≠ q) :
    isolateStep delim ⟨done ++ [cur], done.length, [q]⟩ c
      = ⟨done ++ [cur ++ [c]], done.length, [q]⟩ := by
  rw [← isolate_append]
  unfold isolateStep
  have h1 : ¬ (c = delim ∧ ([q] : List Char).isEmpty = true) := by simp
  rw [if_neg h1]
  by_cases h34 : c = Char.ofNat 34
  · rw [if_pos h34]
    have hq39 : q ≠ Char.ofNat 34 := fun h => hc (h34.trans h.symm)
    subst h34
    simp [IsolateState.quote, hq39]
  · rw [if_neg h34]
    by_cases h39 : c = Char.ofNat 39
    · rw [if_pos h39]
      have hq34 : q ≠ Char.ofNat 39 := fun h => hc (h39.trans h.symm)
      subst h39
      simp [IsolateState.quote, hq34]
    · rw [if_neg h39]

theorem isolate_fold_inside (delim q : Char) (done : List Str) (w : Str) :
    ∀ cur : Str, q ∉ w →
      w.foldl (isolateStep delim) ⟨done ++ [cur], done.length, [q]⟩
        = ⟨done ++ [cur ++ w], done.length, [q]⟩ := by
  induction w with
  | nil => intro cur _; simp
  | cons c w ih =>
    intro cur hw
    have hc : c ≠ q := fun h => hw (by simp [h])
    have hw2 : q ∉ w := fun h => hw (List.mem_cons_of_mem _ h)
    rw [List.foldl_cons, isolateStep_inside delim q c done cur hc, ih _ hw2]
    simp

theorem isolate_fold_quoted (delim q : Char) (done : List Str) (w : Str)
    (hq : q = Char.ofNat 34 ∨ q = Char.ofNat 39) (hd : q ≠ delim) (hw : q ∉ w) :
    (q :: (w ++ [q])).foldl (isolateStep delim) ⟨done ++ [[]], done.length, []⟩
      = ⟨done ++ [w], done.length, []⟩ := by
  rw [List.foldl_cons, isolateStep_open delim q done hq hd, List.foldl_append,
    isolate_fold_inside delim q done w [] hw, List.nil_append, List.foldl_cons,
    List.foldl_nil, isolateStep_close delim q done w hq]

theorem isolate_fold_payload (vs : List (Char × Str)) :
    ∀ (v : Char × Str) (done : List Str),
      (∀ x ∈ v :: vs, (x.1 = Char.ofNat 34 ∨ x.1 = Char.ofNat 39) ∧ x.1 ∉ x.2) →
      ((quotedPayload (v :: vs)).foldl (isolateStep ',') ⟨done ++ [[]], done.length, []⟩).container
        = done ++ (v :: vs).map (fun x => x.2) := by
  induction vs with
  | nil =>
    intro v done hv
    obtain ⟨q, w⟩ := v
    obtain ⟨hq, hw⟩ := hv (q, w) (List.mem_singleton.mpr rfl)
    simp only at hq hw
    have hd : q ≠ ',' := by rcases hq with h | h <;> (rw [h]; decide)
    simp only [quotedPayload]
    rw [isolate_fold_quoted ',' q done w hq hd hw]
    simp
  | cons v2 vs ih =>
    intro v done hv
    obtain ⟨q, w⟩ := v
    obtain ⟨hq, hw⟩ := hv (q, w) (List.mem_cons_self _ _)
    simp only at hq hw
    have hd : q ≠ ',' := by rcases hq with h | h <;> (rw [h]; decide)
    have hv2 : ∀ x ∈ v2 :: vs, (x.1 = Char.ofNat 34 ∨ x.1 = Char.ofNat 39) ∧ x.1 ∉ x.2 :=
      fun x hx => hv x (List.mem_cons_of_mem _ hx)
    simp only [quotedPayload]
    rw [List.foldl_append, isolate_fold_quoted ',' q done w hq hd hw, List.foldl_cons,
      isolateStep_delim ',' done w, ih v2 (done ++ [w]) hv2]
    simp

theorem isolateParams_quoted_values (vs : List (Char × Str)) (hne : vs ≠ [])
    (hv : ∀ x ∈ vs, (x.1 = Char.ofNat 34 ∨ x.1 = Char.ofNat 39) ∧ x.1 ∉ x.2) :
    isolateParams (quotedPayload vs) ',' = vs.map (fun x => x.2) := by
  cases vs with
  | nil => exact absurd rfl hne
  | cons v vs =>
    have := isolate_fold_payload vs v [] hv
    simpa [isolateParams] using this

theorem isolateStep_literal_quote (delim q : Char) (st : IsolateState)
    (hq : q = Char.ofNat 34 ∨ q = Char.ofNat 39) (hd : q ≠ delim)
    (hopen : st.quotes = []) (hcur : st.container.getD st.index [] ≠ []) :
    isolateStep delim st q = st.append q := by
  simp only [List.getD_eq_getElem?_getD] at hcur
  rcases hq with rfl | rfl
  · simp [isolateStep, IsolateState.quote, hd, hopen, hcur]
  · have h : ¬ (Char.ofNat 39 = Char.ofNat 34) := by decide
    simp [isolateStep, IsolateState.quote, hd, hopen, hcur, h]

/-- Claim C20. For `n >= 1` values, each wrapped in a quote character it does not contain
and joined by single commas, `isolateParams` returns exactly the values, quotes removed;
commas and the other quote character inside a value are kept. A quote character met while
no quote is open and the current parameter is non-empty is appended as a literal character,
as in `it's`. -/
theorem isolateParams_quotedPayload (vs : List (Char × Str)) (hne : vs ≠ [])
    (hv : ∀ x ∈ vs, (x.1 = Char.ofNat 34 ∨ x.1 = Char.ofNat 39) ∧ x.1 ∉ x.2) :
    isolateParams (quotedPayload vs) ',' = vs.map (fun x => x.2) ∧
    (∀ (st : IsolateState) (q : Char), (q = Char.ofNat 34 ∨ q = Char.ofNat 39) →
      st.quotes = [] → st.container.getD st.index [] ≠ [] →
      isolateStep ',' st q = st.append q) ∧
    isolateParams "it's".toList ',' = ["it's".toList] := by
  refine ⟨isolateParams_quoted_values vs hne hv, ?_, by decide⟩
  intro st q hq hopen hcur
  have hd : q ≠ ',' := by rcases hq with h | h <;> (rw [h]; decide)
  exact isolateStep_literal_quote ',' q st hq hd hopen hcur

/-- Witness of claim C20: the payload `'hello, world',"it's"`. -/
theorem isolateParams_quotedPayload_witness :
    isolateParams
        (quotedPayload [(Char.ofNat 39, "hello, world".toList), (Char.ofNat 34, "it's".toList)])
        ',' = ["hello, world".toList, "it's".toList] :=
  (isolateParams_quotedPayload
    [(Char.ofNat 39, "hello, world".toList), (Char.ofNat 34, "it's".toList)]
    (by decide) (by decide)).1

/-! ## Separators in the column list -/

/-- Claim C21 (the code departs from the claim). On the tokens of `(a INT, b INT,)` the
first type token `INT,` equals `columns.back()` once the closing parenthesis is removed, so
its comma is not popped: the columns `("a", "INT,")` and `("b", "INT,")` are returned. A
non-final type token without comma gives the missing-comma diagnostic and no column, as
for `(a INT b INT)` and for the empty type token of `(a  b INT)`. -/
theorem parseTableColumns_keeps_separator :
    parseTableColumns (split "(a INT, b INT,)".toList ' ') =
      .ok ⟨none, [("a".toList, "INT,".toList), ("b".toList, "INT,".toList)]⟩ ∧
    parseTableColumns (split "(a INT b INT)".toList ' ') =
      .ok ⟨some (ParseDiag.missingComma "INT".toList), []⟩ ∧
    split "(a  b INT)".toList ' ' = ["(a".toList, [], "b".toList, "INT)".toList] ∧
    parseTableColumns (split "(a  b INT)".toList ' ') =
      .ok ⟨some (ParseDiag.missingComma []), []⟩ :=
  ⟨rfl, rfl, rfl, rfl⟩

/-! ## Payloads without quotes -/

theorem intercalate_concat (sep x : Str) (l : List Str) (hl : l ≠ []) :
    sep.intercalate (l ++ [x]) = sep.intercalate l ++ sep ++ x := by
  induction l with
  | nil => exact absurd rfl hl
  | cons a l ih =>
    cases l with
    | nil => simp [List.intercalate]
    | cons b l =>
      have e1 : a :: b :: l ++ [x] = a :: (b :: l ++ [x]) := rfl
      rw [e1, intercalate_cons_of_ne_nil sep a (b :: l ++ [x]) (by simp), ih (by simp),
        intercalate_cons_of_ne_nil sep a (b :: l) (by simp)]
      simp

theorem intercalate_concat_snoc (sep cur : Str) (done : List Str) (c : Char) :
    sep.intercalate (done ++ [cur ++ [c]]) = sep.intercalate (done ++ [cur]) ++ [c] := by
  cases done with
  | nil => simp [List.intercalate]
  | cons a l =>
    rw [intercalate_concat _ _ _ (by simp), intercalate_concat _ _ _ (by simp)]
    simp

theorem isolateStep_plain (delim c : Char) (done : List Str) (cur : Str)
    (hd : c ≠ delim) (h34 : c ≠ Char.ofNat 34) (h39 : c ≠ Char.ofNat 39) :
    isolateStep delim ⟨done ++ [cur], done.length, []⟩ c
      = ⟨done ++ [cur ++ [c]], done.length, []⟩ := by
  rw [← isolate_append]
  unfold isolateStep
  have h1 : ¬ (c = delim ∧ ([] : List Char).isEmpty = true) := by simp [hd]
  rw [if_neg h1, if_neg h34, if_neg h39]

/-- The fold of `isolateParams` over a payload without quote characters: the parameters
already closed are kept, the payload is cut at its commas. -/
theorem isolate_fold_unquoted (p : Str) :
    ∀ (done : List Str) (cur : Str), Char.ofNat 34 ∉ p → Char.ofNat 39 ∉ p →
      ∃ (done1 : List Str) (cur1 : Str),
        p.foldl (isolateStep ',') ⟨done ++ [cur], done.length, []⟩
          = ⟨done1 ++ [cur1], done1.length, []⟩ ∧
        (done1 ++ [cur1]).length = (done ++ [cur]).length + p.count ',' ∧
        [','].intercalate (done1 ++ [cur1]) = [','].intercalate (done ++ [cur]) ++ p ∧
        ((∀ x ∈ done ++ [cur], ',' ∉ x) → ∀ x ∈ done1 ++ [cur1], ',' ∉ x) := by
  induction p with
  | nil =>
    intro done cur _ _
    exact ⟨done, cur, rfl, by simp, by simp, fun h => h⟩
  | cons c p ih =>
    intro done cur h34 h39
    have hc34 : c ≠ Char.ofNat 34 := fun h => h34 (by simp [h])
    have hc39 : c ≠ Char.ofNat 39 := fun h => h39 (by simp [h])
    have hp34 : Char.ofNat 34 ∉ p := fun h => h34 (List.mem_cons_of_mem _ h)
    have hp39 : Char.ofNat 39 ∉ p := fun h => h39 (List.mem_cons_of_mem _ h)
    by_cases hc : c = ','
    · subst hc
      obtain ⟨done1, cur1, hf, hl, hj, hn⟩ := ih (done ++ [cur]) [] hp34 hp39
      refine ⟨done1, cur1, ?_, ?_, ?_, ?_⟩
      · rw [List.foldl_cons, isolateStep_delim, hf]
      · rw [hl]; simp; omega
      · rw [hj, intercalate_concat _ _ _ (by simp)]; simp
      · intro h
        apply hn
        intro x hx
        rw [List.mem_append, List.mem_singleton] at hx
        rcases hx with hx | hx
        · exact h x hx
        · rw [hx]; simp
    · obtain ⟨done1, cur1, hf, hl, hj, hn⟩ := ih done (cur ++ [c]) hp34 hp39
      refine ⟨done1, cur1, ?_, ?_, ?_, ?_⟩
      · rw [List.foldl_cons, isolateStep_plain ',' c done cur hc hc34 hc39, hf]
      · rw [hl, List.count_cons_of_ne (Ne.symm hc)]; simp
      · rw [hj, intercalate_concat_snoc]; simp
      · intro h
        apply hn
        intro x hx
        rw [List.mem_append, List.mem_singleton] at hx
        rcases hx with hx | hx
        · exact h x (List.mem_append_left _ hx)
        · rw [hx]
          intro hm
          rw [List.mem_append, List.mem_singleton] at hm
          rcases hm with hm | hm
          · exact h cur (by simp) hm
          · exact hc hm.symm

theorem isolateParams_unquoted_fields (payload : Str)
    (h34 : Char.ofNat 34 ∉ payload) (h39 : Char.ofNat 39 ∉ payload) :
    (isolateParams payload ',').length = payload.count ',' + 1 ∧
    [','].intercalate (isolateParams payload ',') = payload ∧
    (∀ x ∈ isolateParams payload ',', ',' ∉ x) := by
  obtain ⟨done1, cur1, hf, hl, hj, hn⟩ := isolate_fold_unquoted payload [] [] h34 h39
  unfold isolateParams
  have e : (⟨[[]], 0, []⟩ : IsolateState) = ⟨[] ++ [[]], ([] : List Str).length, []⟩ := rfl
  rw [e, hf]
  refine ⟨?_, ?_, ?_⟩
  · simp only at hl ⊢; rw [hl]; simp; omega
  · simp only at hj ⊢; rw [hj]; simp [List.intercalate]
  · exact hn (by simp)

/-- Claim C22. On a payload without quote characters `isolateParams` with delimiter `,`
returns the comma-separated fields: one more parameter than the payload has commas, no
comma inside a parameter, and the parameters joined by `,` give the payload back character
for character. The empty payload gives one empty parameter and a final comma gives a final
empty parameter. -/
theorem isolateParams_unquoted (payload : Str)
    (h34 : Char.ofNat 34 ∉ payload) (h39 : Char.ofNat 39 ∉ payload) :
    ((isolateParams payload ',').length = payload.count ',' + 1 ∧
      [','].intercalate (isolateParams payload ',') = payload ∧
      (∀ x ∈ isolateParams payload ',', ',' ∉ x)) ∧
    isolateParams [] ',' = [[]] ∧
    isolateParams "a,".toList ',' = ["a".toList, []] :=
  ⟨isolateParams_unquoted_fields payload h34 h39, rfl, rfl⟩

/-- Witness of claim C22: the payload ` a , b,,c ` has three commas and four fields,
spaces kept. -/
theorem isolateParams_unquoted_witness :
    isolateParams " a , b,,c ".toList ',' =
      [" a ".toList, " b".toList, [], "c ".toList] ∧
    (isolateParams " a , b,,c ".toList ',').length = " a , b,,c ".toList.count ',' + 1 ∧
    [','].intercalate (isolateParams " a , b,,c ".toList ',') = " a , b,,c ".toList :=
  ⟨rfl,
   (isolateParams_unquoted " a , b,,c ".toList (by decide) (by decide)).1.1,
   (isolateParams_unquoted " a , b,,c ".toList (by decide) (by decide)).1.2.1⟩

/-! ## The selected database -/

/-- Claim C23 (the code departs from the claim). After `CREATE DATABASE a;`, `USE a;` and
`DROP DATABASE a;` the map of databases is empty while the member `database` still points
to the dropped object, so the invariant fails; a following `CREATE TABLE t;` returns true
and creates the table in the dropped database. After the first two lines the invariant
holds. -/
theorem dropDatabase_keeps_selection (K : TableOps) :
    SQL_CLI K State.init
        ["CREATE DATABASE a;".toList, "USE a;".toList, "EXIT".toList] =
      .ok ⟨[⟨"a".toList, []⟩], [("a".toList, 0)], some 0, 1⟩ ∧
    selectedRegistered ⟨[⟨"a".toList, []⟩], [("a".toList, 0)], some 0, 1⟩ = true ∧
    SQL_CLI K State.init
        ["CREATE DATABASE a;".toList, "USE a;".toList, "DROP DATABASE a;".toList,
          "EXIT".toList] =
      .ok ⟨[⟨"a".toList, []⟩], [], some 0, 0⟩ ∧
    selectedRegistered ⟨[⟨"a".toList, []⟩], [], some 0, 0⟩ = false ∧
    HANDLE_CMD K ⟨[⟨"a".toList, []⟩], [], some 0, 0⟩ (split "CREATE TABLE t;".toList ' ') =
      .ok (true, ⟨[⟨"a".toList, [("t".toList, emptyTable)]⟩], [], some 0, 0⟩) :=
  ⟨rfl, by decide, rfl, by decide, rfl⟩

end SQL
